import Mathlib

/-!
Verification of the indicator engine and live-price bookkeeping of the
SM-Dashboard application (src/app.py).

The OHLCV series handed to the engine is modelled as a list of bars with
rational prices.  The pandas float behaviours that the code relies on are
made explicit in the definitions:

* Close.diff() yields NaN at the first position; the subsequent
  where(delta > 0, 0) (resp. the negated where(delta < 0, 0)) replaces
  that NaN by 0, so the gain/loss series start with a literal 0.
* rolling(w).mean()/max()/min() evaluated at the last position (iloc[-1])
  is the mean/max/min of the trailing window of width w; the engine only
  reads it under a length >= w guard, where the window is complete.
* rs = gain / loss at the last position is NaN exactly when both averages
  are 0 (pandas 0/0), and +inf when the loss average is 0 with a positive
  gain average; in the latter case 100 - 100/(1 + inf) evaluates to 100.
  The pd.isna ternary therefore yields 50 in the 0/0 case, 100 in the
  inf case, and the finite formula otherwise; rsiLast spells this out.
-/

namespace SMDash

/-- One OHLCV bar of the input series (timestamps abstracted to naturals). -/
structure Bar where
  time : Nat
  open_ : ℚ
  high : ℚ
  low : ℚ
  close : ℚ
  volume : ℚ
  deriving DecidableEq, Repr

/-- The indicator mapping produced by the engine: each key is present
(some) or absent (none), mirroring the optional keys of the Python dict.
The source keys ma_20, ma_50, rsi, 52_week_high, 52_week_low are kept,
with the leading digit moved for Lean's identifier rules. -/
structure IndicatorSet where
  ma_20 : Option ℚ
  ma_50 : Option ℚ
  rsi : Option ℚ
  week_52_high : Option ℚ
  week_52_low : Option ℚ
  deriving DecidableEq, Repr

/-- Maximum of a list of rationals: pandas Series.max on a non-empty
column (the empty case is unreachable under the engine's guards). -/
def listMax : List ℚ → ℚ
  | [] => 0
  | [x] => x
  | x :: y :: tl => max x (listMax (y :: tl))

/-- Minimum of a list of rationals: pandas Series.min on a non-empty
column. -/
def listMin : List ℚ → ℚ
  | [] => 0
  | [x] => x
  | x :: y :: tl => min x (listMin (y :: tl))

/-- The trailing window of width w of a series: the slice a pandas
rolling window of size w sees at the last position. -/
def lastWindow (w : Nat) (l : List α) : List α := l.drop (l.length - w)

/-- Last entry of Series.rolling(w).mean(): the mean of the trailing w
values (the engine reads it only when the series has at least w entries,
so the window is complete and the entry is not NaN). -/
def rollingMeanLast (w : Nat) (l : List ℚ) : ℚ := (lastWindow w l).sum / w

/-- Last entry of Series.rolling(w).max(). -/
def rollingMaxLast (w : Nat) (l : List ℚ) : ℚ := listMax (lastWindow w l)

/-- Last entry of Series.rolling(w).min(). -/
def rollingMinLast (w : Nat) (l : List ℚ) : ℚ := listMin (lastWindow w l)

/-- The gain column: delta.where(delta > 0, 0) for delta = Close.diff().
The first diff is NaN in pandas and where replaces it by 0, so a
non-empty series yields a leading 0 followed by the positive parts of
the consecutive differences. -/
def gainSeries : List ℚ → List ℚ
  | [] => []
  | c :: tl =>
    0 :: List.zipWith (fun prev cur => if cur - prev > 0 then cur - prev else 0) (c :: tl) tl

/-- The loss column: -delta.where(delta < 0, 0) for delta = Close.diff().
The leading NaN becomes 0 (and -0 = 0); a negative difference
contributes its negation, anything else contributes 0. -/
def lossSeries : List ℚ → List ℚ
  | [] => []
  | c :: tl =>
    0 :: List.zipWith (fun prev cur => if cur - prev < 0 then -(cur - prev) else 0) (c :: tl) tl

/-- The RSI value read off rs = gain / loss at the last position, fed
through 100 - (100 / (1 + rs)) if not pd.isna(rs) else 50.  With g the
trailing gain average and l the trailing loss average (both finite and
nonnegative): pandas gives rs = NaN iff g = l = 0, in which case the
ternary takes the 50 branch; rs = +inf iff l = 0 < g, and then
100 - 100/(1 + inf) evaluates to 100; otherwise rs = g / l is finite
and the textbook formula applies. -/
def rsiLast (g l : ℚ) : ℚ :=
  if l = 0 then
    if g = 0 then 50 else 100
  else 100 - 100 / (1 + g / l)

/-- calculate_technical_indicators (src/app.py lines 174-200): builds the
indicator dict from the OHLCV series.  Each field mirrors one guarded
assignment of the source; the dict starts empty and stays empty for an
empty series. -/
def calculate_technical_indicators (data : List Bar) : IndicatorSet :=
  if 0 < data.length then
    ⟨ (if 20 ≤ data.length then some (rollingMeanLast 20 (data.map Bar.close)) else none)
    , (if 50 ≤ data.length then some (rollingMeanLast 50 (data.map Bar.close)) else none)
    , (if 14 ≤ data.length then
        some (rsiLast (rollingMeanLast 14 (gainSeries (data.map Bar.close)))
                      (rollingMeanLast 14 (lossSeries (data.map Bar.close))))
      else none)
    , some (if 252 ≤ data.length then rollingMaxLast 252 (data.map Bar.high)
            else listMax (data.map Bar.high))
    , some (if 252 ≤ data.length then rollingMinLast 252 (data.map Bar.low)
            else listMin (data.map Bar.low)) ⟩
  else ⟨none, none, none, none, none⟩

/-- latest_price (src/app.py line 263): current_price or Close.iloc[-1].
Python or takes the left operand when it is truthy; the realtime quote
is either absent (None) or a float, and a float is falsy exactly when
it is zero. -/
def latest_price (current_price : Option ℚ) (lastClose : ℚ) : ℚ :=
  match current_price with
  | none => lastClose
  | some p => if p = 0 then lastClose else p

/-- price_change (src/app.py line 265). -/
def price_change (latest prev : ℚ) : ℚ := latest - prev

/-- price_change_pct (src/app.py line 266):
(price_change / prev_price) * 100 if prev_price != 0 else 0. -/
def price_change_pct (latest prev : ℚ) : ℚ :=
  if prev ≠ 0 then (price_change latest prev / prev) * 100 else 0

/-- One entry of st.session_state.price_history: a dict with keys time
and price (timestamps abstracted to naturals). -/
structure LiveSample where
  time : Nat
  price : ℚ
  deriving DecidableEq, Repr

/-- The per-cycle update of st.session_state.price_history (src/app.py
lines 249-257): if current_price is truthy (present and nonzero) the
sample is appended and, when the length then exceeds 100, the list is
cut to its last 100 entries; otherwise the buffer is left untouched. -/
def updatePriceHistory (hist : List LiveSample) (now : Nat) (current_price : Option ℚ) :
    List LiveSample :=
  match current_price with
  | none => hist
  | some p =>
    if p = 0 then hist
    else
      let h := hist ++ [⟨now, p⟩]
      if 100 < h.length then h.drop (h.length - 100) else h

/-- The per-step gains between consecutive closes, one entry per adjacent
pair and no padding: the actual gains of the claim statements. -/
def stepGains : List ℚ → List ℚ
  | c0 :: c1 :: tl => (if c1 - c0 > 0 then c1 - c0 else 0) :: stepGains (c1 :: tl)
  | _ => []

/-- The per-step losses between consecutive closes, one entry per
adjacent pair and no padding. -/
def stepLosses : List ℚ → List ℚ
  | c0 :: c1 :: tl => (if c1 - c0 < 0 then -(c1 - c0) else 0) :: stepLosses (c1 :: tl)
  | _ => []

/-- The window the 52-week extrema are taken over: the trailing 252 bars
when at least 252 are available, the whole series otherwise. -/
def window252 (data : List Bar) : List Bar :=
  if 252 ≤ data.length then lastWindow 252 data else data

/-- A bar holding the same price c everywhere, for concrete test series. -/
def mkBar (c : ℚ) : Bar := ⟨0, c, c, c, c, 0⟩

/-- Fourteen bars with strictly increasing closes 1..14: every
consecutive difference is a gain, the trailing-14 loss average is 0. -/
def bars14up : List Bar :=
  [mkBar 1, mkBar 2, mkBar 3, mkBar 4, mkBar 5, mkBar 6, mkBar 7,
   mkBar 8, mkBar 9, mkBar 10, mkBar 11, mkBar 12, mkBar 13, mkBar 14]

/-- A single bar with distinct high and low, for concrete witnesses. -/
def bar1 : Bar := ⟨0, 5, 8, 3, 6, 100⟩

/-! ### Field accessor lemmas for the engine -/

theorem cti_ma20_eq (data : List Bar) (h : 20 ≤ data.length) :
    (calculate_technical_indicators data).ma_20 =
      some (rollingMeanLast 20 (data.map Bar.close)) := by
  have h0 : 0 < data.length := by omega
  simp [calculate_technical_indicators, h, h0]

theorem cti_ma20_none (data : List Bar) (h : data.length < 20) :
    (calculate_technical_indicators data).ma_20 = none := by
  have h2 : ¬ 20 ≤ data.length := by omega
  by_cases h0 : 0 < data.length <;> simp [calculate_technical_indicators, h0, h2]

theorem cti_rsi_eq (data : List Bar) (h : 14 ≤ data.length) :
    (calculate_technical_indicators data).rsi =
      some (rsiLast (rollingMeanLast 14 (gainSeries (data.map Bar.close)))
                    (rollingMeanLast 14 (lossSeries (data.map Bar.close)))) := by
  have h0 : 0 < data.length := by omega
  simp [calculate_technical_indicators, h, h0]

theorem cti_rsi_none (data : List Bar) (h : data.length < 14) :
    (calculate_technical_indicators data).rsi = none := by
  have h2 : ¬ 14 ≤ data.length := by omega
  by_cases h0 : 0 < data.length <;> simp [calculate_technical_indicators, h0, h2]

theorem lastWindow_map (w : Nat) (f : α → β) (l : List α) :
    lastWindow w (l.map f) = (lastWindow w l).map f := by
  rw [lastWindow, lastWindow, List.length_map, List.map_drop]

theorem cti_high_eq (data : List Bar) (h0 : 0 < data.length) :
    (calculate_technical_indicators data).week_52_high =
      some (listMax ((window252 data).map Bar.high)) := by
  simp only [calculate_technical_indicators, if_pos h0]
  by_cases h : 252 ≤ data.length
  · simp [window252, h, rollingMaxLast, lastWindow_map]
  · simp [window252, h]

theorem cti_low_eq (data : List Bar) (h0 : 0 < data.length) :
    (calculate_technical_indicators data).week_52_low =
      some (listMin ((window252 data).map Bar.low)) := by
  simp only [calculate_technical_indicators, if_pos h0]
  by_cases h : 252 ≤ data.length
  · simp [window252, h, rollingMinLast, lastWindow_map]
  · simp [window252, h]

/-! ### Extrema of a list of rationals -/

theorem le_listMax (l : List ℚ) (x : ℚ) (hx : x ∈ l) : x ≤ listMax l := by
  induction l with
  | nil => cases hx
  | cons a tl ih =>
    cases tl with
    | nil =>
      rcases List.mem_cons.mp hx with h | h
      · simp [listMax, h]
      · cases h
    | cons b tl2 =>
      rcases List.mem_cons.mp hx with h | h
      · rw [h]; exact le_max_left _ _
      · exact le_trans (ih h) (le_max_right _ _)

theorem listMin_le (l : List ℚ) (x : ℚ) (hx : x ∈ l) : listMin l ≤ x := by
  induction l with
  | nil => cases hx
  | cons a tl ih =>
    cases tl with
    | nil =>
      rcases List.mem_cons.mp hx with h | h
      · simp [listMin, h]
      · cases h
    | cons b tl2 =>
      rcases List.mem_cons.mp hx with h | h
      · rw [h]; exact min_le_left _ _
      · exact le_trans (min_le_right _ _) (ih h)

theorem listMax_mem (l : List ℚ) (h : l ≠ []) : listMax l ∈ l := by
  induction l with
  | nil => exact absurd rfl h
  | cons a tl ih =>
    cases tl with
    | nil => simp [listMax]
    | cons b tl2 =>
      rcases max_choice a (listMax (b :: tl2)) with hm | hm
      · rw [listMax, hm]; exact List.mem_cons_self _ _
      · rw [listMax, hm]; exact List.mem_cons_of_mem _ (ih (by simp))

theorem listMin_mem (l : List ℚ) (h : l ≠ []) : listMin l ∈ l := by
  induction l with
  | nil => exact absurd rfl h
  | cons a tl ih =>
    cases tl with
    | nil => simp [listMin]
    | cons b tl2 =>
      rcases min_choice a (listMin (b :: tl2)) with hm | hm
      · rw [listMin, hm]; exact List.mem_cons_self _ _
      · rw [listMin, hm]; exact List.mem_cons_of_mem _ (ih (by simp))

/-! ### The 52-week window -/

theorem window252_ne_nil (data : List Bar) (h : data ≠ []) : window252 data ≠ [] := by
  unfold window252
  split
  · rename_i h252
    have hlen : (lastWindow 252 data).length = 252 := by
      rw [lastWindow, List.length_drop]; omega
    intro hnil
    rw [hnil] at hlen
    cases hlen
  · exact h

theorem window252_subset (data : List Bar) : window252 data ⊆ data := by
  unfold window252
  split
  · exact List.drop_subset _ _
  · exact List.Subset.refl _

/-! ### Nonnegativity of the gain and loss columns -/

theorem zipGain_nonneg (l1 l2 : List ℚ) (x : ℚ)
    (hx : x ∈ List.zipWith (fun prev cur => if cur - prev > 0 then cur - prev else 0) l1 l2) :
    0 ≤ x := by
  induction l1 generalizing l2 with
  | nil => simp at hx
  | cons a t ih =>
    cases l2 with
    | nil => simp at hx
    | cons b t2 =>
      rw [List.zipWith_cons_cons] at hx
      rcases List.mem_cons.mp hx with h | h
      · rw [h]
        split
        · linarith
        · exact le_refl 0
      · exact ih t2 h

theorem zipLoss_nonneg (l1 l2 : List ℚ) (x : ℚ)
    (hx : x ∈ List.zipWith (fun prev cur => if cur - prev < 0 then -(cur - prev) else 0) l1 l2) :
    0 ≤ x := by
  induction l1 generalizing l2 with
  | nil => simp at hx
  | cons a t ih =>
    cases l2 with
    | nil => simp at hx
    | cons b t2 =>
      rw [List.zipWith_cons_cons] at hx
      rcases List.mem_cons.mp hx with h | h
      · rw [h]
        split
        · linarith
        · exact le_refl 0
      · exact ih t2 h

theorem gainSeries_nonneg (closes : List ℚ) : ∀ x ∈ gainSeries closes, 0 ≤ x := by
  cases closes with
  | nil => simp [gainSeries]
  | cons c tl =>
    intro x hx
    rw [gainSeries] at hx
    rcases List.mem_cons.mp hx with h | h
    · rw [h]
    · exact zipGain_nonneg _ _ _ h

theorem lossSeries_nonneg (closes : List ℚ) : ∀ x ∈ lossSeries closes, 0 ≤ x := by
  cases closes with
  | nil => simp [lossSeries]
  | cons c tl =>
    intro x hx
    rw [lossSeries] at hx
    rcases List.mem_cons.mp hx with h | h
    · rw [h]
    · exact zipLoss_nonneg _ _ _ h

theorem rollingMeanLast_nonneg (w : Nat) (l : List ℚ) (hl : ∀ x ∈ l, 0 ≤ x) :
    0 ≤ rollingMeanLast w l := by
  apply div_nonneg
  · exact List.sum_nonneg fun x hx => hl x (List.drop_subset _ _ hx)
  · exact Nat.cast_nonneg w

/-! ### Range of the RSI formula -/

theorem rsiLast_bounds (g l : ℚ) (hg : 0 ≤ g) (hl : 0 ≤ l) :
    0 ≤ rsiLast g l ∧ rsiLast g l ≤ 100 := by
  unfold rsiLast
  split
  · split <;> norm_num
  · rename_i hne
    have hrs : 0 ≤ g / l := div_nonneg hg hl
    have h1 : (0:ℚ) < 1 + g / l := by linarith
    have h2 : 100 / (1 + g / l) ≤ 100 := div_le_self (by norm_num) (by linarith)
    have h3 : 0 < 100 / (1 + g / l) := div_pos (by norm_num) h1
    constructor <;> linarith

/-! ### The padded first window -/

theorem stepGains_length (l : List ℚ) : (stepGains l).length = l.length - 1 := by
  induction l with
  | nil => rfl
  | cons c tl ih =>
    cases tl with
    | nil => rfl
    | cons c1 tl2 =>
      simp only [stepGains, List.length_cons]
      rw [ih]
      simp

theorem stepLosses_length (l : List ℚ) : (stepLosses l).length = l.length - 1 := by
  induction l with
  | nil => rfl
  | cons c tl ih =>
    cases tl with
    | nil => rfl
    | cons c1 tl2 =>
      simp only [stepLosses, List.length_cons]
      rw [ih]
      simp

theorem zipWith_gain_eq_stepGains (l : List ℚ) :
    List.zipWith (fun prev cur => if cur - prev > 0 then cur - prev else 0) l l.tail
      = stepGains l := by
  induction l with
  | nil => rfl
  | cons c tl ih =>
    cases tl with
    | nil => rfl
    | cons c1 tl2 =>
      simp only [List.tail_cons, List.zipWith_cons_cons, stepGains]
      rw [← ih]
      rfl

theorem zipWith_loss_eq_stepLosses (l : List ℚ) :
    List.zipWith (fun prev cur => if cur - prev < 0 then -(cur - prev) else 0) l l.tail
      = stepLosses l := by
  induction l with
  | nil => rfl
  | cons c tl ih =>
    cases tl with
    | nil => rfl
    | cons c1 tl2 =>
      simp only [List.tail_cons, List.zipWith_cons_cons, stepLosses]
      rw [← ih]
      rfl

theorem gainSeries_eq (l : List ℚ) (h : l ≠ []) : gainSeries l = 0 :: stepGains l := by
  cases l with
  | nil => exact absurd rfl h
  | cons c tl =>
    rw [gainSeries, ← zipWith_gain_eq_stepGains (c :: tl), List.tail_cons]

theorem lossSeries_eq (l : List ℚ) (h : l ≠ []) : lossSeries l = 0 :: stepLosses l := by
  cases l with
  | nil => exact absurd rfl h
  | cons c tl =>
    rw [lossSeries, ← zipWith_loss_eq_stepLosses (c :: tl), List.tail_cons]

/-! ### Concrete evaluations on the increasing 14-bar series -/

theorem bars14up_length : bars14up.length = 14 := by
  norm_num [bars14up]

theorem bars14up_loss : rollingMeanLast 14 (lossSeries (bars14up.map Bar.close)) = 0 := by
  norm_num [bars14up, mkBar, rollingMeanLast, lastWindow, lossSeries, List.zipWith, Bar.close]

theorem bars14up_gain : rollingMeanLast 14 (gainSeries (bars14up.map Bar.close)) = 13 / 14 := by
  norm_num [bars14up, mkBar, rollingMeanLast, lastWindow, gainSeries, List.zipWith, Bar.close]

theorem bars14up_rsi : (calculate_technical_indicators bars14up).rsi = some 100 := by
  rw [cti_rsi_eq bars14up (by rw [bars14up_length]), bars14up_gain, bars14up_loss]
  norm_num [rsiLast]

/-! ### The claims -/

/-- Claim C1, counterexample: the 14-bar series with strictly increasing
closes 1..14 has trailing-14 average loss equal to 0, yet
calculate_technical_indicators returns rsi = 100, not 50: pandas rs is
+inf there (positive gain over zero loss), which is not NaN, so the
isna fallback is not taken. -/
theorem C1_counterexample :
    14 ≤ bars14up.length
    ∧ rollingMeanLast 14 (lossSeries (bars14up.map Bar.close)) = 0
    ∧ (calculate_technical_indicators bars14up).rsi ≠ some 50 := by
  refine ⟨by rw [bars14up_length], bars14up_loss, ?_⟩
  rw [bars14up_rsi]
  norm_num

/-- Claim C1, amended: for every series of at least 14 bars whose
trailing-14 average loss is zero, calculate_technical_indicators returns
rsi = 50 when the trailing-14 average gain is also zero (the undefined
0/0 ratio), and rsi = 100 when the average gain is positive. -/
theorem C1_rsi_zero_loss (data : List Bar) (h14 : 14 ≤ data.length)
    (hl : rollingMeanLast 14 (lossSeries (data.map Bar.close)) = 0) :
    (calculate_technical_indicators data).rsi =
      some (if rollingMeanLast 14 (gainSeries (data.map Bar.close)) = 0 then 50 else 100) := by
  rw [cti_rsi_eq data h14, hl]
  simp [rsiLast]

/-- Claim C1, witness: the amended statement applied to the increasing
14-bar series, whose average gain 13/14 is nonzero, yields rsi = 100. -/
theorem C1_witness : (calculate_technical_indicators bars14up).rsi = some 100 := by
  have h := C1_rsi_zero_loss bars14up (by rw [bars14up_length]) bars14up_loss
  rw [bars14up_gain] at h
  norm_num at h
  exact h

/-- Claim C2: for a non-empty series of fewer than 252 bars the 52-week
high/low are the max of high and min of low over the entire series; for
at least 252 bars they are taken over the trailing 252 bars ending at
the last bar (a window of exactly 252 bars). -/
theorem C2_week52_window (data : List Bar) (hne : data ≠ []) :
    (data.length < 252 →
      (calculate_technical_indicators data).week_52_high = some (listMax (data.map Bar.high))
      ∧ (calculate_technical_indicators data).week_52_low = some (listMin (data.map Bar.low)))
    ∧ (252 ≤ data.length →
      (lastWindow 252 data).length = 252
      ∧ (calculate_technical_indicators data).week_52_high
          = some (listMax ((lastWindow 252 data).map Bar.high))
      ∧ (calculate_technical_indicators data).week_52_low
          = some (listMin ((lastWindow 252 data).map Bar.low))) := by
  have h0 : 0 < data.length := List.length_pos.mpr hne
  constructor
  · intro hlt
    have hw : window252 data = data := by
      rw [window252, if_neg (by omega)]
    rw [cti_high_eq data h0, cti_low_eq data h0, hw]
    exact ⟨rfl, rfl⟩
  · intro hge
    have hw : window252 data = lastWindow 252 data := by
      rw [window252, if_pos hge]
    refine ⟨by rw [lastWindow, List.length_drop]; omega, ?_, ?_⟩
    · rw [cti_high_eq data h0, hw]
    · rw [cti_low_eq data h0, hw]

/-- Claim C2, witness: on a single bar (fewer than 252), the 52-week
extrema are taken over the entire one-element series. -/
theorem C2_witness :
    (calculate_technical_indicators [bar1]).week_52_high = some (listMax ([bar1].map Bar.high))
    ∧ (calculate_technical_indicators [bar1]).week_52_low
        = some (listMin ([bar1].map Bar.low)) :=
  (C2_week52_window [bar1] (by simp)).1 (by norm_num)

/-- Claim C3: for fewer than 20 bars the ma_20 key is absent; for at
least 20 bars it equals the arithmetic mean of the closes of the last
20 bars (a window of exactly 20 bars, summed and divided by 20). -/
theorem C3_ma20 (data : List Bar) :
    (data.length < 20 → (calculate_technical_indicators data).ma_20 = none)
    ∧ (20 ≤ data.length →
        (lastWindow 20 data).length = 20
        ∧ (calculate_technical_indicators data).ma_20
            = some (((lastWindow 20 data).map Bar.close).sum / 20)) := by
  constructor
  · exact cti_ma20_none data
  · intro h
    refine ⟨by rw [lastWindow, List.length_drop]; omega, ?_⟩
    rw [cti_ma20_eq data h, rollingMeanLast, lastWindow_map]
    norm_num

/-- Claim C3, witness: a single bar has no ma_20, and on a concrete
20-bar series the mean of the last 20 closes is returned. -/
theorem C3_witness : (calculate_technical_indicators [bar1]).ma_20 = none :=
  (C3_ma20 [bar1]).1 (by norm_num)

/-- Claim C4: whenever calculate_technical_indicators includes the rsi
key, the value lies in the closed interval [0, 100]. -/
theorem C4_rsi_range (data : List Bar) (r : ℚ)
    (h : (calculate_technical_indicators data).rsi = some r) :
    0 ≤ r ∧ r ≤ 100 := by
  by_cases h14 : 14 ≤ data.length
  · rw [cti_rsi_eq data h14] at h
    injection h with h
    subst h
    exact rsiLast_bounds _ _
      (rollingMeanLast_nonneg _ _ (gainSeries_nonneg _))
      (rollingMeanLast_nonneg _ _ (lossSeries_nonneg _))
  · rw [cti_rsi_none data (by omega)] at h
    cases h

/-- Claim C4, witness: the rsi value 100 returned on the increasing
14-bar series lies within [0, 100]. -/
theorem C4_witness : 0 ≤ (100:ℚ) ∧ (100:ℚ) ≤ 100 :=
  C4_rsi_range bars14up 100 bars14up_rsi

/-- Claim C5: the empty series yields the empty indicator mapping (every
key absent); the engine is a total function of the series, so no fault
is raised for any well-formed input. -/
theorem C5_empty_series :
    calculate_technical_indicators [] = ⟨none, none, none, none, none⟩ := rfl

/-- Claim C6: for every non-empty series of well-formed bars (each bar's
low at most its high), the returned 52-week low is at most the returned
52-week high. -/
theorem C6_low_le_high (data : List Bar) (hne : data ≠ [])
    (hwf : ∀ b ∈ data, b.low ≤ b.high) :
    ∃ hi lo, (calculate_technical_indicators data).week_52_high = some hi
      ∧ (calculate_technical_indicators data).week_52_low = some lo
      ∧ lo ≤ hi := by
  have h0 : 0 < data.length := List.length_pos.mpr hne
  refine ⟨_, _, cti_high_eq data h0, cti_low_eq data h0, ?_⟩
  obtain ⟨b, hb⟩ := List.exists_mem_of_ne_nil _ (window252_ne_nil data hne)
  have h1 : listMin ((window252 data).map Bar.low) ≤ b.low :=
    listMin_le _ _ (List.mem_map_of_mem _ hb)
  have h2 : b.low ≤ b.high := hwf b (window252_subset data hb)
  have h3 : b.high ≤ listMax ((window252 data).map Bar.high) :=
    le_listMax _ _ (List.mem_map_of_mem _ hb)
  linarith

/-- Claim C6, witness: on the single bar with high 8 and low 3, the
returned 52-week low is at most the returned 52-week high. -/
theorem C6_witness :
    ∃ hi lo, (calculate_technical_indicators [bar1]).week_52_high = some hi
      ∧ (calculate_technical_indicators [bar1]).week_52_low = some lo
      ∧ lo ≤ hi :=
  C6_low_le_high [bar1] (by simp)
    (by intro b hb; simp at hb; rw [hb]; norm_num [bar1])

/-- Claim C7: price_change_pct equals (latest - previous) / previous *
100 whenever the previous close is nonzero, and equals 0 when the
previous close is zero, so the division by zero never occurs. -/
theorem C7_price_change_pct (latest prev : ℚ) :
    (prev ≠ 0 → price_change_pct latest prev = (latest - prev) / prev * 100)
    ∧ (prev = 0 → price_change_pct latest prev = 0) := by
  constructor
  · intro h
    simp [price_change_pct, price_change, h]
  · intro h
    simp [price_change_pct, h]

/-- Claim C7, witness: previous = 0 and latest = 5 give exactly 0. -/
theorem C7_witness : price_change_pct 5 0 = 0 :=
  (C7_price_change_pct 5 0).2 rfl

/-- Claim C8: one refresh cycle appends at most one sample to the live
price buffer; if the buffer held at most 100 samples it still does
afterwards; and the new buffer is a suffix of the old buffer extended by
the new sample, so evictions remove the oldest entries first and the
order of the surviving most recent entries is preserved. -/
theorem C8_price_history_bounded (hist : List LiveSample) (now : Nat) (cp : Option ℚ) :
    (updatePriceHistory hist now cp).length ≤ hist.length + 1
    ∧ (hist.length ≤ 100 → (updatePriceHistory hist now cp).length ≤ 100)
    ∧ ∃ ns : List LiveSample, ns.length ≤ 1
        ∧ List.IsSuffix (updatePriceHistory hist now cp) (hist ++ ns) := by
  cases cp with
  | none =>
    refine ⟨by simp [updatePriceHistory], fun h => by simpa [updatePriceHistory] using h,
      [], by simp, ?_⟩
    simp [updatePriceHistory]
  | some p =>
    by_cases hp : p = 0
    · refine ⟨by simp [updatePriceHistory, hp],
        fun h => by simpa [updatePriceHistory, hp] using h, [], by simp, ?_⟩
      simp [updatePriceHistory, hp]
    · simp only [updatePriceHistory, if_neg hp]
      by_cases hl : 100 < (hist ++ [(⟨now, p⟩ : LiveSample)]).length
      · rw [if_pos hl]
        rw [List.length_append, List.length_cons, List.length_nil] at hl
        have hlen :
            ((hist ++ [(⟨now, p⟩ : LiveSample)]).drop
              ((hist ++ [(⟨now, p⟩ : LiveSample)]).length - 100)).length = 100 := by
          rw [List.length_drop, List.length_append, List.length_cons, List.length_nil]
          omega
        refine ⟨by rw [hlen]; omega, fun _ => by rw [hlen], [⟨now, p⟩], by simp, ?_⟩
        exact List.drop_suffix _ _
      · rw [if_neg hl]
        rw [List.length_append, List.length_cons, List.length_nil] at hl
        refine ⟨by rw [List.length_append]; simp, fun _ => ?_, [⟨now, p⟩], by simp,
          List.suffix_refl _⟩
        rw [List.length_append, List.length_cons, List.length_nil]
        omega

/-- Claim C8, witness: appending the first sample to an empty buffer
keeps it within the 100-sample capacity. -/
theorem C8_witness : (updatePriceHistory [] 0 (some 1)).length ≤ 100 :=
  (C8_price_history_bounded [] 0 (some 1)).2.1 (by simp)

/-- Claim C9: for a series of exactly 14 bars the first bar's undefined
delta enters the window as a gain of 0 and a loss of 0, so the
trailing-14 averages equal the sum of the 13 actual per-step gains
(resp. losses) divided by 14 — the short first window is zero-padded
rather than averaged over 13. -/
theorem C9_first_window_padding (data : List Bar) (h : data.length = 14) :
    (stepGains (data.map Bar.close)).length = 13
    ∧ rollingMeanLast 14 (gainSeries (data.map Bar.close))
        = (stepGains (data.map Bar.close)).sum / 14
    ∧ (stepLosses (data.map Bar.close)).length = 13
    ∧ rollingMeanLast 14 (lossSeries (data.map Bar.close))
        = (stepLosses (data.map Bar.close)).sum / 14 := by
  have hmlen : (data.map Bar.close).length = 14 := by rw [List.length_map, h]
  have hne : data.map Bar.close ≠ [] := by
    intro hnil
    rw [hnil] at hmlen
    cases hmlen
  refine ⟨by rw [stepGains_length, hmlen], ?_, by rw [stepLosses_length, hmlen], ?_⟩
  · rw [rollingMeanLast, gainSeries_eq _ hne, lastWindow]
    have hlen : (0 :: stepGains (data.map Bar.close)).length = 14 := by
      rw [List.length_cons, stepGains_length, hmlen]
    rw [hlen]
    norm_num
  · rw [rollingMeanLast, lossSeries_eq _ hne, lastWindow]
    have hlen : (0 :: stepLosses (data.map Bar.close)).length = 14 := by
      rw [List.length_cons, stepLosses_length, hmlen]
    rw [hlen]
    norm_num

/-- Claim C9, witness: on the increasing 14-bar series the trailing-14
average gain is the sum of the 13 actual gains divided by 14. -/
theorem C9_witness :
    rollingMeanLast 14 (gainSeries (bars14up.map Bar.close))
      = (stepGains (bars14up.map Bar.close)).sum / 14 :=
  (C9_first_window_padding bars14up bars14up_length).2.1

/-- Claim C10: a realtime quote of exactly 0 is treated as absent —
latest_price falls back to the last historical close and no sample is
appended to the live buffer — while a nonzero quote is used as the
latest price and its sample is appended at the end of the buffer. -/
theorem C10_zero_quote (lastClose : ℚ) (hist : List LiveSample) (now : Nat) :
    latest_price none lastClose = lastClose
    ∧ latest_price (some 0) lastClose = lastClose
    ∧ (∀ p : ℚ, p ≠ 0 → latest_price (some p) lastClose = p)
    ∧ updatePriceHistory hist now none = hist
    ∧ updatePriceHistory hist now (some 0) = hist
    ∧ (∀ p : ℚ, p ≠ 0 →
        ∃ pre, updatePriceHistory hist now (some p) = pre ++ [⟨now, p⟩]) := by
  refine ⟨rfl, by simp [latest_price], fun p hp => by simp [latest_price, hp], rfl,
    by simp [updatePriceHistory], fun p hp => ?_⟩
  simp only [updatePriceHistory, if_neg hp]
  by_cases hl : 100 < (hist ++ [(⟨now, p⟩ : LiveSample)]).length
  · rw [if_pos hl]
    rw [List.length_append, List.length_cons, List.length_nil] at hl
    refine ⟨hist.drop ((hist ++ [(⟨now, p⟩ : LiveSample)]).length - 100), ?_⟩
    rw [List.drop_append_of_le_length]
    rw [List.length_append, List.length_cons, List.length_nil]
    omega
  · rw [if_neg hl]
    exact ⟨hist, rfl⟩

/-- Claim C10, witness: a nonzero quote of 5 is used as the latest price
in place of the historical close 7. -/
theorem C10_witness : latest_price (some 5) 7 = 5 :=
  (C10_zero_quote 7 [] 0).2.2.1 5 (by norm_num)

end SMDash
